import Mathlib

/-!
Shallow embedding of the service-health monitoring core of `src/App.jsx`:
staleness classification (`isHealthy`), grouping (`groupByName`), the two
poll handlers (`fetchData`, `fetchSystemInfo`) and the confetti/toast
notification latch, together with theorems about them.

Time is modelled in integer epoch milliseconds (the representation dayjs
computes with).  A timestamp string is modelled as `Option Int`: `some t`
for a string that dayjs parses to epoch milliseconds `t`, and `none` for an
unparsable string (dayjs Invalid Date, whose diff is NaN; `NaN <= 25` is
`false` in JS).
-/

/-- dayjs `now.diff(timestamp, "second")`: the difference in milliseconds
divided by 1000 and truncated toward zero (dayjs rounds the quotient with
`absFloor`, which is truncation toward zero; `Int.tdiv` is exactly that). -/
def dayjsDiffSeconds (nowMs tMs : Int) : Int :=
  (nowMs - tMs).tdiv 1000

/-- `isHealthy` from `App.jsx`: `now.diff(timestamp, "second") <= 25`.
On an unparsable date the diff is NaN and the comparison is `false`. -/
def isHealthy (date : Option Int) (now : Int) : Bool :=
  match date with
  | none => false
  | some t => dayjsDiffSeconds now t ≤ 25

/-- One service event `{ name, type, date }` from the events endpoint. -/
structure ServiceEvent where
  name : String
  type : String
  date : Option Int
deriving DecidableEq

/-- The consumed part of the cpu record: `cpu.total`. -/
structure CpuStat where
  total : Int
deriving DecidableEq

/-- The consumed part of the mem record: `mem.percent`. -/
structure MemStat where
  percent : Int
deriving DecidableEq

/-- `systemInfo` state: `{ cpu: { total }, mem: { percent } }`. -/
structure SystemStats where
  cpu : CpuStat
  mem : MemStat
deriving DecidableEq

/-- `useState` initial value of `systemInfo`: zeroed stats. -/
def initialSystemStats : SystemStats :=
  { cpu := { total := 0 }, mem := { percent := 0 } }

/-- The React state of the `App` component: the `data` event list, the
`systemInfo` metrics and the `showConfetti` celebration latch. -/
structure AppState where
  data : List ServiceEvent
  systemInfo : SystemStats
  showConfetti : Bool
deriving DecidableEq

/-- The three `useState` initial values: `[]`, zeroed stats, `false`. -/
def initialAppState : AppState :=
  { data := [], systemInfo := initialSystemStats, showConfetti := false }

/-- The signals the notification machine emits: `toast.error(...)` is the
AlertSignal and `toast.success(...)` is the CelebrateSignal. -/
inductive Signal where
  | alertSignal
  | celebrateSignal
deriving DecidableEq

/-- `response.data.some((item) => !isHealthy(item.date))` from `fetchData`. -/
def hasUnhealthy (events : List ServiceEvent) (now : Int) : Bool :=
  events.any (fun item => !isHealthy item.date now)

/-- `fetchData` from `App.jsx`, as a function of the poll outcome, the
evaluation instant and the component state, returning the new state and the
emitted signals.  `capturedConfetti` is the `showConfetti` value that the
invoked closure reads (a React closure reads the state of the render that
created it).  On `Except.error` only `console.error` runs: the state is
returned unchanged and no signal is emitted.  On success `setData` stores
the response, then either the unhealthy branch (alert, latch cleared) or
the all-healthy branch (celebrate and set the latch, guarded by
`!showConfetti`) runs. -/
def fetchData (capturedConfetti : Bool) (st : AppState)
    (result : Except String (List ServiceEvent)) (now : Int) :
    AppState × List Signal :=
  match result with
  | Except.error _ => (st, [])
  | Except.ok events =>
    let st1 := { st with data := events }
    if hasUnhealthy events now then
      ({ st1 with showConfetti := false }, [Signal.alertSignal])
    else if !capturedConfetti then
      ({ st1 with showConfetti := true }, [Signal.celebrateSignal])
    else
      (st1, [])

/-- The `useEffect` with `[]` dependencies runs once at mount, so the
interval it installs forever invokes the `fetchData` closure of the first
render, whose captured `showConfetti` is the `useState(false)` initial
value. -/
def firstRenderShowConfetti : Bool := false

/-- An interval-driven invocation of `fetchData`: the closure captured at
mount, reading `firstRenderShowConfetti`. -/
def intervalFetchData (st : AppState) (result : Except String (List ServiceEvent))
    (now : Int) : AppState × List Signal :=
  fetchData firstRenderShowConfetti st result now

/-- Run a sequence of interval-driven polls (each a fetch outcome and an
evaluation instant), threading the state and concatenating the signals. -/
def runPolls : AppState → List (Except String (List ServiceEvent) × Int) →
    AppState × List Signal
  | st, [] => (st, [])
  | st, (result, now) :: rest =>
    let r1 := intervalFetchData st result now
    let r2 := runPolls r1.1 rest
    (r2.1, r1.2 ++ r2.2)

/-- `fetchSystemInfo` from `App.jsx`: on success `setSystemInfo` replaces
the stored metrics; on failure only `console.error` runs.  It touches no
other state and emits no signal. -/
def fetchSystemInfo (st : AppState) (result : Except String SystemStats) :
    AppState :=
  match result with
  | Except.error _ => st
  | Except.ok info => { st with systemInfo := info }

/-- The property names of `Object.prototype`.  `groups = {}` inherits from
`Object.prototype`, so reading any of these names on `groups` through the
prototype chain yields an inherited truthy value (a built-in function, or
for `__proto__` the prototype object itself) even when no own property of
that name exists. -/
def objectPrototypeKeys : List String :=
  ["constructor", "hasOwnProperty", "isPrototypeOf", "propertyIsEnumerable",
   "toLocaleString", "toString", "valueOf", "__proto__",
   "__defineGetter__", "__defineSetter__", "__lookupGetter__",
   "__lookupSetter__"]

/-- The TypeError raised by `groups[item.name].push(item)` when the
property read resolved to an inherited non-array value: its `push` member
is undefined and is not a function. -/
inductive JsTypeError where
  | pushIsNotAFunction
deriving DecidableEq

deriving instance DecidableEq for Except

/-- Whether the object whose own string-keyed entries (in insertion order)
are `g` has an own property named `n`. -/
def hasOwnKey (g : List (String × List ServiceEvent)) (n : String) : Bool :=
  g.any (fun p => p.1 == n)

/-- The pure own-property update emerging from the loop body on a benign
name: append the event to the own entry for its name, creating the entry at
the end when absent.  `groupStep` below reduces to this exactly when the
property read does not hit the prototype chain. -/
def pushToGroup : List (String × List ServiceEvent) → String → ServiceEvent →
    List (String × List ServiceEvent)
  | [], n, e => [(n, [e])]
  | (k, v) :: rest, n, e =>
    if k = n then (k, v ++ [e]) :: rest
    else (k, v) :: pushToGroup rest n e

/-- One iteration of the `groupByName` loop body
`if (!groups[item.name]) groups[item.name] = []; groups[item.name].push(item)`
on the object `groups`.  The reads walk the prototype chain: an own key
yields its array (truthy even when empty), so no entry is created and the
push appends to it; otherwise a name that is an `Object.prototype` property
yields an inherited truthy non-array, so the array is again not created and
the subsequent `.push` throws a TypeError; otherwise the read is undefined
(falsy), the own array is created and the event pushed. -/
def groupStep (g : List (String × List ServiceEvent)) (n : String)
    (e : ServiceEvent) : Except JsTypeError (List (String × List ServiceEvent)) :=
  if hasOwnKey g n then
    Except.ok (pushToGroup g n e)
  else if n ∈ objectPrototypeKeys then
    Except.error JsTypeError.pushIsNotAFunction
  else
    Except.ok (pushToGroup g n e)

/-- The `data.forEach` loop of `groupByName`: run the loop body over the
events, stopping at the first thrown TypeError. -/
def runGroupLoop : List (String × List ServiceEvent) → List ServiceEvent →
    Except JsTypeError (List (String × List ServiceEvent))
  | groups, [] => Except.ok groups
  | groups, item :: rest =>
    match groupStep groups item.name item with
    | Except.error err => Except.error err
    | Except.ok groups2 => runGroupLoop groups2 rest

/-- `groupByName` from `App.jsx`: run the loop from the empty object `{}`.
It returns the own string-keyed entries in insertion order, or the
TypeError thrown on the first event whose name collides with an
`Object.prototype` property. -/
def groupByName (data : List ServiceEvent) :
    Except JsTypeError (List (String × List ServiceEvent)) :=
  runGroupLoop [] data

/-- The pure grouping fold that `groupByName` computes on benign inputs
(no prototype-colliding name, so no throw). -/
def groupFold (data : List ServiceEvent) : List (String × List ServiceEvent) :=
  data.foldl (fun groups item => pushToGroup groups item.name item) []

/-- Statement-side accessor on a successful grouping result: the own entry
for key `n`, with `[]` when absent.  (This reads the produced mapping, not
the JS object: the prototype chain belongs to `groupStep`.) -/
def groupLookup : List (String × List ServiceEvent) → String → List ServiceEvent
  | [], _ => []
  | (k, v) :: rest, n => if k = n then v else groupLookup rest n

/-- The numeric value of a decimal digit string. -/
def indexKeyValue (s : String) : Nat :=
  s.data.foldl (fun acc ch => acc * 10 + (ch.toNat - 48)) 0

/-- Whether a string is an ECMAScript array index name: the canonical
decimal form (all digits, no leading zero except in `0` itself) of an
integer below 2^32 - 1. -/
def isArrayIndexName (s : String) : Bool :=
  match s.data with
  | [] => false
  | c :: rest =>
    (c :: rest).all Char.isDigit && (c ≠ '0' || rest.isEmpty) &&
      indexKeyValue s < 4294967295

/-- Insert an array-index key into an ascending run of array-index keys,
comparing their numeric values. -/
def insertIndexKey (s : String) : List String → List String
  | [] => [s]
  | t :: rest =>
    if indexKeyValue s ≤ indexKeyValue t then s :: t :: rest
    else t :: insertIndexKey s rest

/-- Sort array-index keys into ascending numeric order. -/
def sortIndexKeys (ks : List String) : List String :=
  ks.foldr insertIndexKey []

/-- ECMAScript `[[OwnPropertyKeys]]` order for the string keys of an
object, given its own keys in insertion order: array-index names first in
ascending numeric order, then the remaining names in insertion order.
`Object.keys` enumerates in this order. -/
def jsObjectKeys (ownKeys : List String) : List String :=
  sortIndexKeys (ownKeys.filter (fun s => isArrayIndexName s)) ++
    ownKeys.filter (fun s => !isArrayIndexName s)

/-- The group-key order the presentation iterates:
`Object.keys(groupedData)`, or the TypeError thrown by the grouping. -/
def groupByNameKeys (data : List ServiceEvent) : Except JsTypeError (List String) :=
  match groupByName data with
  | Except.error err => Except.error err
  | Except.ok groups => Except.ok (jsObjectKeys (groups.map Prod.fst))

/-- Total number of events across all groups. -/
def totalGroupCount (groups : List (String × List ServiceEvent)) : Nat :=
  (groups.map (fun g => g.2.length)).sum

/-- Spec-side definition, following the words of the spec only: the group
keys in the insertion order of each name, keeping its first appearance.
Used solely to compare the key order of `groupByName` against. -/
def specFirstAppearanceOrder (names : List String) : List String :=
  names.foldl (fun ks n => if n ∈ ks then ks else ks ++ [n]) []

/-- C4: a failed poll leaves the stored event set, the derived
classifications and the celebration latch unchanged, and the notification
transition is not invoked: no signal is emitted that cycle. -/
theorem failed_poll_leaves_state_unchanged (c : Bool) (st : AppState)
    (msg : String) (now : Int) :
    fetchData c st (Except.error msg) now = (st, []) := rfl

/-- C10: the system-metrics fetch replaces the stored metrics on success and
retains the previous values on failure, and in both cases leaves the event
store and the celebration latch unchanged. -/
theorem fetchSystemInfo_frame :
    (∀ st info, fetchSystemInfo st (Except.ok info) = { st with systemInfo := info }) ∧
    (∀ st msg, fetchSystemInfo st (Except.error msg) = st) ∧
    (∀ st r, (fetchSystemInfo st r).data = st.data ∧
      (fetchSystemInfo st r).showConfetti = st.showConfetti) := by
  refine ⟨fun st info => rfl, fun st msg => rfl, fun st r => ?_⟩
  cases r with
  | error msg => exact ⟨rfl, rfl⟩
  | ok info => exact ⟨rfl, rfl⟩

/-- C1 (evidence for the code bug): two consecutive successful all-Healthy
interval polls from the initial state emit a CelebrateSignal each, because
every interval invocation reads the first-render latch value `false`; the
spec requires the second poll, made while already Celebrating, to emit
nothing. -/
theorem two_healthy_polls_emit_two_celebrations :
    (runPolls initialAppState
      [(Except.ok [{ name := "svc1", type := "A", date := some 0 }], 0),
       (Except.ok [{ name := "svc1", type := "A", date := some 0 }], 0)]).2 =
      [Signal.celebrateSignal, Signal.celebrateSignal] := by decide

/-- C2 (counterexample): a successful poll returning the empty event set,
taken in the initial state, emits a CelebrateSignal (not the AlertSignal
the claim requires) and sets the latch to `true` (not `false`). -/
theorem empty_poll_emits_celebrate_not_alert :
    (fetchData false initialAppState (Except.ok []) 0).2 = [Signal.celebrateSignal] ∧
    (fetchData false initialAppState (Except.ok []) 0).1.showConfetti = true := by
  decide

/-- C3 (counterexample): at an elapsed time of 25.001 seconds (25001 ms,
strictly more than 25 seconds) `isHealthy` still returns `true`, though the
claim requires that elapsed time to be classified Stale. -/
theorem isHealthy_true_at_25001_ms :
    isHealthy (some 0) 25001 = true ∧ (25000 : Int) < 25001 - 0 := by decide

/-- C7: a successful poll returning the empty event set takes the
all-healthy branch: with the latch read as `false` it emits a
CelebrateSignal and sets the latch; with the latch read as `true` it emits
nothing; in neither case is an AlertSignal emitted. -/
theorem empty_poll_takes_healthy_branch :
    (∀ st now, fetchData false st (Except.ok []) now =
      ({ st with data := [], showConfetti := true }, [Signal.celebrateSignal])) ∧
    (∀ st now, fetchData true st (Except.ok []) now =
      ({ st with data := [] }, [])) := by
  exact ⟨fun st now => rfl, fun st now => rfl⟩

/-- Helper for the 25-second boundary: truncating division by 1000 is at
most 25 exactly when the millisecond difference is below 26000. -/
theorem tdiv_1000_le_25_iff (d : Int) : d.tdiv 1000 ≤ 25 ↔ d < 26000 := by
  cases d with
  | ofNat m =>
    have h1 : (Int.ofNat m).tdiv 1000 = Int.ofNat (m / 1000) := rfl
    rw [h1, Int.ofNat_eq_natCast, Int.ofNat_eq_natCast]
    omega
  | negSucc m =>
    have h1 : (Int.negSucc m).tdiv 1000 = -Int.ofNat (m.succ / 1000) := rfl
    rw [h1, Int.ofNat_eq_natCast, Int.negSucc_eq]
    omega

/-- C3 (amended): for a parsable timestamp, `isHealthy` returns `true` iff
the elapsed time `now - t` is strictly below 26 seconds: dayjs truncates
the elapsed time to whole seconds before comparing with 25, so exactly 25 s
is Healthy, 25.001 s is also Healthy, and Stale begins at 26 s. -/
theorem isHealthy_iff_elapsed_lt_26s (t now : Int) :
    isHealthy (some t) now = true ↔ now - t < 26000 := by
  simp only [isHealthy, dayjsDiffSeconds, decide_eq_true_eq]
  exact tdiv_1000_le_25_iff (now - t)

/-- C8: a timestamp strictly in the future (negative elapsed time) is
classified Healthy, and an unparsable timestamp is classified Stale. -/
theorem future_and_unparsable_classification :
    (∀ t now : Int, now - t < 0 → isHealthy (some t) now = true) ∧
    (∀ now : Int, isHealthy none now = false) := by
  refine ⟨fun t now h => ?_, fun now => rfl⟩
  simp only [isHealthy, dayjsDiffSeconds, decide_eq_true_eq]
  exact (tdiv_1000_le_25_iff (now - t)).mpr (by omega)

/-- C8 witness: a timestamp 50 ms in the future is Healthy; an unparsable
timestamp is Stale. -/
theorem future_and_unparsable_witness :
    isHealthy (some 100) 50 = true ∧ isHealthy none 0 = false :=
  ⟨future_and_unparsable_classification.1 100 50 (by decide),
   future_and_unparsable_classification.2 0⟩

/-- C6: every interval-driven invocation of `fetchData` reads the
first-render latch value `false`, so every successful poll whose event set
has no unhealthy member emits a CelebrateSignal and sets the latch,
whatever the actual latch value in `st` is. -/
theorem interval_poll_celebrates_whenever_all_healthy (st : AppState)
    (events : List ServiceEvent) (now : Int)
    (h : hasUnhealthy events now = false) :
    intervalFetchData st (Except.ok events) now =
      ({ st with data := events, showConfetti := true },
       [Signal.celebrateSignal]) := by
  simp [intervalFetchData, firstRenderShowConfetti, fetchData, h]

/-- C6 witness: an interval poll taken while the latch already holds `true`
still emits a CelebrateSignal for an all-Healthy set. -/
theorem interval_poll_celebrates_witness :
    intervalFetchData
      { data := [], systemInfo := initialSystemStats, showConfetti := true }
      (Except.ok [{ name := "svc1", type := "A", date := some 4000 }]) 5000 =
      ({ data := [{ name := "svc1", type := "A", date := some 4000 }],
         systemInfo := initialSystemStats, showConfetti := true },
       [Signal.celebrateSignal]) :=
  interval_poll_celebrates_whenever_all_healthy
    { data := [], systemInfo := initialSystemStats, showConfetti := true }
    [{ name := "svc1", type := "A", date := some 4000 }] 5000 (by decide)

/-- C2 (amended): for every successful poll whose evaluated event set
contains at least one Stale event, the machine emits an AlertSignal that
cycle (level-triggered, whatever latch value the closure read and whatever
the prior state) and sets the latch to `false`; an empty event set instead
takes the all-healthy branch. -/
theorem stale_poll_emits_alert_and_resets_latch (c : Bool) (st : AppState)
    (events : List ServiceEvent) (now : Int)
    (h : ∃ e, e ∈ events ∧ isHealthy e.date now = false) :
    fetchData c st (Except.ok events) now =
      ({ st with data := events, showConfetti := false },
       [Signal.alertSignal]) := by
  have hu : hasUnhealthy events now = true := by
    rcases h with ⟨e, he, hs⟩
    simp only [hasUnhealthy, List.any_eq_true, Bool.not_eq_eq_eq_not, Bool.not_true]
    exact ⟨e, he, hs⟩
  simp [fetchData, hu]

/-- C2 amended witness: a poll containing one event 60 s old, taken with
the latch read as `true`, emits an AlertSignal and clears the latch. -/
theorem stale_poll_alert_witness :
    fetchData true initialAppState
      (Except.ok [{ name := "svc2", type := "B", date := some 0 }]) 60000 =
      ({ initialAppState with
          data := [{ name := "svc2", type := "B", date := some 0 }],
          showConfetti := false },
       [Signal.alertSignal]) :=
  stale_poll_emits_alert_and_resets_latch true initialAppState
    [{ name := "svc2", type := "B", date := some 0 }] 60000
    ⟨{ name := "svc2", type := "B", date := some 0 }, by decide, by decide⟩

/-- Reading a key after one push: the pushed name gains the event at the
end of its group; every other key is unchanged. -/
theorem groupLookup_pushToGroup (g : List (String × List ServiceEvent))
    (n : String) (e : ServiceEvent) (m : String) :
    groupLookup (pushToGroup g n e) m =
      if m = n then groupLookup g m ++ [e] else groupLookup g m := by
  induction g with
  | nil =>
    by_cases h : m = n
    · subst h; simp [pushToGroup, groupLookup]
    · have h2 : ¬(n = m) := fun hh => h hh.symm
      simp [pushToGroup, groupLookup, h, h2]
  | cons p rest ih =>
    obtain ⟨k, v⟩ := p
    by_cases hk : k = n
    · subst hk
      by_cases hm : m = k
      · subst hm; simp [pushToGroup, groupLookup]
      · have h2 : ¬(k = m) := fun hh => hm hh.symm
        simp [pushToGroup, groupLookup, hm, h2]
    · by_cases hm : k = m
      · subst hm
        simp [pushToGroup, groupLookup, hk]
      · simp [pushToGroup, groupLookup, hk, hm, ih]

/-- Keys after one push: unchanged when the name is present, otherwise the
name is appended at the end. -/
theorem pushToGroup_keys (g : List (String × List ServiceEvent))
    (n : String) (e : ServiceEvent) :
    (pushToGroup g n e).map Prod.fst =
      if n ∈ g.map Prod.fst then g.map Prod.fst
      else g.map Prod.fst ++ [n] := by
  induction g with
  | nil => simp [pushToGroup]
  | cons p rest ih =>
    obtain ⟨k, v⟩ := p
    by_cases hk : k = n
    · subst hk; simp [pushToGroup]
    · have h2 : ¬(n = k) := fun hh => hk hh.symm
      simp [pushToGroup, hk, ih, h2]
      by_cases hn : n ∈ rest.map Prod.fst
      · simp [hn, h2]
      · simp [hn, h2]

/-- Unfolding the event total over a cons cell. -/
theorem totalGroupCount_cons (p : String × List ServiceEvent)
    (l : List (String × List ServiceEvent)) :
    totalGroupCount (p :: l) = p.2.length + totalGroupCount l := by
  simp [totalGroupCount]

/-- One push adds exactly one event to the total. -/
theorem totalGroupCount_pushToGroup (g : List (String × List ServiceEvent))
    (n : String) (e : ServiceEvent) :
    totalGroupCount (pushToGroup g n e) = totalGroupCount g + 1 := by
  induction g with
  | nil => simp [pushToGroup, totalGroupCount]
  | cons p rest ih =>
    obtain ⟨k, v⟩ := p
    by_cases hk : k = n
    · subst hk
      simp [pushToGroup, totalGroupCount_cons, List.length_append]
      omega
    · simp [pushToGroup, hk, totalGroupCount_cons, ih]
      omega

/-- The grouping fold, read through `groupLookup`: each key holds the input
events bearing that name, in input order, after whatever the accumulator
already held for it. -/
theorem groupLookup_foldl (data : List ServiceEvent) :
    ∀ (acc : List (String × List ServiceEvent)) (n : String),
      groupLookup
          (data.foldl (fun groups item => pushToGroup groups item.name item) acc) n =
        groupLookup acc n ++ data.filter (fun e => e.name == n) := by
  induction data with
  | nil => intro acc n; simp
  | cons e rest ih =>
    intro acc n
    simp only [List.foldl_cons, List.filter_cons]
    rw [ih, groupLookup_pushToGroup]
    by_cases h : n = e.name
    · subst h; simp
    · have h2 : (e.name == n) = false := by
        simp only [beq_eq_false_iff_ne, ne_eq]
        exact fun hh => h hh.symm
      rw [if_neg h, h2]
      simp

/-- The keys of the grouping fold are computed by the first-appearance
fold over the names. -/
theorem groupByName_keys_foldl (data : List ServiceEvent) :
    ∀ acc : List (String × List ServiceEvent),
      ((data.foldl (fun groups item => pushToGroup groups item.name item) acc).map
          Prod.fst) =
        data.foldl (fun ks item => if item.name ∈ ks then ks else ks ++ [item.name])
          (acc.map Prod.fst) := by
  induction data with
  | nil => intro acc; rfl
  | cons e rest ih =>
    intro acc
    simp only [List.foldl_cons]
    rw [ih, pushToGroup_keys]

/-- The own-key order of the benign grouping fold equals the spec-side
first-appearance order of the input names. -/
theorem groupFold_keys_eq (data : List ServiceEvent) :
    (groupFold data).map Prod.fst =
      specFirstAppearanceOrder (data.map ServiceEvent.name) := by
  rw [groupFold, groupByName_keys_foldl data [], specFirstAppearanceOrder,
    List.foldl_map]
  rfl

/-- The first-appearance fold keeps the key list duplicate-free. -/
theorem specFirstAppearanceOrder_aux_nodup (names : List String) :
    ∀ ks : List String, ks.Nodup →
      (names.foldl (fun ks n => if n ∈ ks then ks else ks ++ [n]) ks).Nodup := by
  induction names with
  | nil => intro ks h; exact h
  | cons n rest ih =>
    intro ks h
    simp only [List.foldl_cons]
    by_cases hn : n ∈ ks
    · rw [if_pos hn]; exact ih ks h
    · rw [if_neg hn]
      exact ih _ (h.append (List.nodup_singleton _) (List.disjoint_singleton.2 hn))

/-- The spec-side key order is duplicate-free. -/
theorem specFirstAppearanceOrder_nodup (names : List String) :
    (specFirstAppearanceOrder names).Nodup :=
  specFirstAppearanceOrder_aux_nodup names [] List.nodup_nil

/-- The grouping fold adds the length of the input to the running total. -/
theorem totalGroupCount_foldl (data : List ServiceEvent) :
    ∀ acc,
      totalGroupCount
          (data.foldl (fun groups item => pushToGroup groups item.name item) acc) =
        totalGroupCount acc + data.length := by
  induction data with
  | nil => intro acc; simp
  | cons e rest ih =>
    intro acc
    simp only [List.foldl_cons, List.length_cons]
    rw [ih, totalGroupCount_pushToGroup]
    omega

/-- On a name that is not an `Object.prototype` property, the loop body
succeeds and computes the pure own-property update. -/
theorem groupStep_ok_of_not_proto (g : List (String × List ServiceEvent))
    (n : String) (e : ServiceEvent) (h : n ∉ objectPrototypeKeys) :
    groupStep g n e = Except.ok (pushToGroup g n e) := by
  by_cases hk : hasOwnKey g n = true
  · simp [groupStep, hk]
  · simp [groupStep, hk, h]

/-- On inputs with no prototype-colliding name, the loop never throws and
computes the pure grouping fold. -/
theorem runGroupLoop_ok_of_benign (data : List ServiceEvent) :
    ∀ acc, (∀ e ∈ data, e.name ∉ objectPrototypeKeys) →
      runGroupLoop acc data =
        Except.ok
          (data.foldl (fun groups item => pushToGroup groups item.name item) acc) := by
  induction data with
  | nil => intro acc h; rfl
  | cons e rest ih =>
    intro acc h
    have he : e.name ∉ objectPrototypeKeys := h e (List.mem_cons_self e rest)
    simp only [runGroupLoop, groupStep_ok_of_not_proto acc e.name e he,
      List.foldl_cons]
    exact ih _ (fun x hx => h x (List.mem_cons_of_mem e hx))

/-- On inputs with no prototype-colliding name, `groupByName` succeeds with
the pure grouping fold. -/
theorem groupByName_ok_of_benign (data : List ServiceEvent)
    (h : ∀ e ∈ data, e.name ∉ objectPrototypeKeys) :
    groupByName data = Except.ok (groupFold data) :=
  runGroupLoop_ok_of_benign data [] h

/-- When no key is an array-index name, the ECMAScript own-key enumeration
is the insertion order itself. -/
theorem jsObjectKeys_of_no_index (ks : List String)
    (h : ∀ k ∈ ks, isArrayIndexName k = false) : jsObjectKeys ks = ks := by
  have h1 : ks.filter (fun s => isArrayIndexName s) = [] := by
    rw [List.filter_eq_nil_iff]
    intro a ha
    simp [h a ha]
  have h2 : ks.filter (fun s => !isArrayIndexName s) = ks := by
    rw [List.filter_eq_self]
    intro a ha
    simp [h a ha]
  rw [jsObjectKeys, h1, h2]
  rfl

/-- Every key produced by the first-appearance fold comes from the
accumulator or from the name list. -/
theorem specFirstAppearanceOrder_aux_subset (names : List String) :
    ∀ (ks : List String) (k : String),
      k ∈ names.foldl (fun ks n => if n ∈ ks then ks else ks ++ [n]) ks →
      k ∈ ks ∨ k ∈ names := by
  induction names with
  | nil => intro ks k h; exact Or.inl h
  | cons n rest ih =>
    intro ks k h
    simp only [List.foldl_cons] at h
    by_cases hn : n ∈ ks
    · rw [if_pos hn] at h
      rcases ih ks k h with h1 | h1
      · exact Or.inl h1
      · exact Or.inr (List.mem_cons_of_mem _ h1)
    · rw [if_neg hn] at h
      rcases ih _ k h with h1 | h1
      · rcases List.mem_append.mp h1 with h2 | h2
        · exact Or.inl h2
        · simp only [List.mem_singleton] at h2
          exact Or.inr (by simp [h2])
      · exact Or.inr (List.mem_cons_of_mem _ h1)

/-- Every key of the spec-side first-appearance order is one of the input
names. -/
theorem specFirstAppearanceOrder_subset (names : List String) (k : String)
    (h : k ∈ specFirstAppearanceOrder names) : k ∈ names := by
  rcases specFirstAppearanceOrder_aux_subset names [] k h with h1 | h1
  · exact absurd h1 (List.not_mem_nil k)
  · exact h1

/-- C5 (counterexample): for an event named `toString`,
`!groups["toString"]` finds the inherited `Object.prototype.toString`
(truthy), so the own array is never created and
`groups["toString"].push(item)` throws a TypeError: `groupByName` produces
no partition at all for this input. -/
theorem groupByName_throws_on_prototype_name :
    groupByName [{ name := "toString", type := "A", date := some 0 }] =
      Except.error JsTypeError.pushIsNotAFunction := by decide

/-- C5 (amended): on every input none of whose event names is an
`Object.prototype` property, `groupByName` succeeds, and its output is a
proper partition: the event total over all groups equals the input count,
each name reads back exactly the input events bearing that name in input
order (so every event is in exactly the group keyed by its name), and the
own keys are duplicate-free. -/
theorem groupByName_partition (data : List ServiceEvent)
    (h : ∀ e ∈ data, e.name ∉ objectPrototypeKeys) :
    groupByName data = Except.ok (groupFold data) ∧
    totalGroupCount (groupFold data) = data.length ∧
    (∀ n, groupLookup (groupFold data) n = data.filter (fun e => e.name == n)) ∧
    ((groupFold data).map Prod.fst).Nodup := by
  refine ⟨groupByName_ok_of_benign data h, ?_, fun n => ?_, ?_⟩
  · rw [groupFold, totalGroupCount_foldl data []]
    simp [totalGroupCount]
  · rw [groupFold, groupLookup_foldl data [] n]
    rfl
  · rw [groupFold_keys_eq]
    exact specFirstAppearanceOrder_nodup _

/-- C5 amended witness: three benign events over two services group into a
partition. -/
theorem groupByName_partition_witness :
    groupByName [{ name := "svc1", type := "A", date := some 0 },
        { name := "svc2", type := "B", date := some 5 },
        { name := "svc1", type := "C", date := some 9 }] =
      Except.ok (groupFold [{ name := "svc1", type := "A", date := some 0 },
        { name := "svc2", type := "B", date := some 5 },
        { name := "svc1", type := "C", date := some 9 }]) ∧
    totalGroupCount (groupFold [{ name := "svc1", type := "A", date := some 0 },
        { name := "svc2", type := "B", date := some 5 },
        { name := "svc1", type := "C", date := some 9 }]) = 3 ∧
    groupLookup (groupFold [{ name := "svc1", type := "A", date := some 0 },
        { name := "svc2", type := "B", date := some 5 },
        { name := "svc1", type := "C", date := some 9 }]) "svc1" =
      [{ name := "svc1", type := "A", date := some 0 },
       { name := "svc1", type := "C", date := some 9 }] :=
  ⟨(groupByName_partition _ (by decide)).1,
   (groupByName_partition _ (by decide)).2.1,
   (groupByName_partition _ (by decide)).2.2.1 "svc1"⟩

/-- C9 (counterexample): a service named `7` is an array-index name, so
`Object.keys` lists it first in numeric order even though `svc` appeared
first in the input: the key order is not the first-appearance order. -/
theorem groupByName_keys_numeric_key_reordered :
    groupByNameKeys [{ name := "svc", type := "A", date := some 0 },
        { name := "7", type := "B", date := some 0 }] =
      Except.ok ["7", "svc"] ∧
    specFirstAppearanceOrder
        ([{ name := "svc", type := "A", date := some 0 },
          { name := "7", type := "B", date := some 0 }].map ServiceEvent.name) =
      ["svc", "7"] := by decide

/-- C9 (amended): on every input whose event names are neither
`Object.prototype` properties (which would make the grouping throw) nor
array-index names (which `Object.keys` would list first in ascending
numeric order), the group keys enumerate in the insertion order of each
name's first appearance in the input; no sorting is applied to them. -/
theorem groupByName_keys_first_appearance_order (data : List ServiceEvent)
    (h : ∀ e ∈ data, e.name ∉ objectPrototypeKeys ∧
      isArrayIndexName e.name = false) :
    groupByNameKeys data =
      Except.ok (specFirstAppearanceOrder (data.map ServiceEvent.name)) := by
  have h1 : ∀ e ∈ data, e.name ∉ objectPrototypeKeys := fun e he => (h e he).1
  have h2 : groupByName data = Except.ok (groupFold data) :=
    groupByName_ok_of_benign data h1
  unfold groupByNameKeys
  rw [h2]
  show Except.ok (jsObjectKeys ((groupFold data).map Prod.fst)) =
    Except.ok (specFirstAppearanceOrder (data.map ServiceEvent.name))
  rw [groupFold_keys_eq, jsObjectKeys_of_no_index]
  intro k hk
  rcases List.mem_map.mp (specFirstAppearanceOrder_subset _ k hk) with ⟨e, he, hke⟩
  rw [← hke]
  exact (h e he).2

/-- C9 amended witness: benign non-numeric names keep first-appearance
order. -/
theorem groupByName_keys_first_appearance_witness :
    groupByNameKeys [{ name := "beta", type := "A", date := some 0 },
        { name := "alpha", type := "B", date := some 0 },
        { name := "beta", type := "C", date := some 0 }] =
      Except.ok (specFirstAppearanceOrder
        ([{ name := "beta", type := "A", date := some 0 },
          { name := "alpha", type := "B", date := some 0 },
          { name := "beta", type := "C", date := some 0 }].map
            ServiceEvent.name)) :=
  groupByName_keys_first_appearance_order _ (by decide)
